import Mathlib

/-!
Verification of the sunrise-alarm controller sketch (`src/arduino_code.ino`).

The sketch is shallowly embedded below.  Machine integers are modelled as
`Nat`/`Int` with explicit reduction modulo `2^32` where the C++ types
(`unsigned long`, `long`) make overflow observable.  The single-precision
`float` arithmetic of `updateSunrise` is modelled exactly: a nonnegative
binary32 value is a dyadic rational `m * 2^e`, and every operation rounds
to a 24-bit significand with round-to-nearest, ties-to-even, exactly as
IEEE 754 prescribes for the value ranges this program can produce
(all values lie far inside the normal range, so neither overflow nor
subnormals can occur).

Hardware effects (analogWrite triples, LCD renders, Serial prints) are
modelled as an ordered list of events emitted by each operation, in the
order the source performs them.
-/

/-! ## Data model (globals of the sketch) -/

/-- `struct PlanetColor { int r, g, b; String name; }`. -/
structure PlanetColor where
  r : Int
  g : Int
  b : Int
  name : String
deriving DecidableEq

/-- `PlanetColor planets[3]` — the preset table, exactly as initialised. -/
def planets : List PlanetColor :=
  [⟨230, 255, 0, "Earth"⟩, ⟨100, 150, 255, "Moon"⟩, ⟨0, 0, 255, "Mars"⟩]

/-- Array access `planets[i]` (meaningful for `0 ≤ i < 3`, the invariant the
sketch maintains for `currentPlanet`). -/
def planetAt (i : Int) : PlanetColor := planets.getD i.toNat ⟨0, 0, 0, ""⟩

/-- The mutable globals: `currentPlanet` (C++ `int`), `sunriseActive`,
`sunriseStartTime` / `sunriseDuration` (`unsigned long`, values `< 2^32`),
`targetR/G/B` (`int`). -/
structure St where
  currentPlanet : Int
  sunriseActive : Bool
  sunriseStartTime : Nat
  targetR : Int
  targetG : Int
  targetB : Int
  sunriseDuration : Nat
deriving DecidableEq

/-- Observable outputs of one operation, in program order.
`color` is a `setColor` (three `analogWrite`s); the `lcd…` constructors are
the clear-and-render blocks; the `serial…` constructors are the
`Serial.print` groups of the sketch. -/
inductive Ev where
  | color (r g b : Int)
  | lcdSunriseStart (name : String)
  | lcdComplete (name : String)
  | lcdShowPlanet (line1 : String) (line2 : Option String)
  | serialButton (code : Nat)
  | serialPlanetChanged (i : Int)
  | serialSunriseStarted (r g b : Int) (d : Nat)
  | serialSunriseComplete
  | serialInvalidFormat
deriving DecidableEq

/-- The `setColor` calls contained in an event list, in order. -/
def colorWrites (evs : List Ev) : List (Int × Int × Int) :=
  evs.filterMap fun e =>
    match e with
    | .color r g b => some (r, g, b)
    | _ => none

/-! ## C string / Arduino `String` helpers -/

/-- `isspace` characters removed by Arduino `String::trim`. -/
def isWhiteChar (c : Char) : Bool :=
  c = ' ' || c = '\t' || c = '\n' || c = '\x0b' || c = '\x0c' || c = '\r'

/-- Arduino `String::trim`: strip `isspace` characters from both ends. -/
def trimArd (l : List Char) : List Char :=
  ((l.dropWhile isWhiteChar).reverse.dropWhile isWhiteChar).reverse

/-- Arduino `String::startsWith` (first argument is the prefix). -/
def beginsWith : List Char → List Char → Bool
  | [], _ => true
  | _ :: _, [] => false
  | p :: ps, c :: cs => p == c && beginsWith ps cs

/-- The command keyword literal `"SUNRISE"`. -/
def kwd : List Char := ['S', 'U', 'N', 'R', 'I', 'S', 'E']

/-- Arduino `String::indexOf(' ')`: index of the first space, `-1` if none. -/
def idxSpace : List Char → Int
  | [] => -1
  | c :: cs =>
    if c = ' ' then 0
    else
      let r := idxSpace cs
      if r = -1 then -1 else r + 1

/-- Accumulated value of a run of decimal digits. -/
def digitsVal (l : List Char) : Nat :=
  l.foldl (fun a c => 10 * a + (c.toNat - 48)) 0

/-- `String::toInt` (avr-libc `atol`): skip leading whitespace, optional
sign, then a run of decimal digits; an input with no digit run yields `0`.
The value is exact here; the C `long` wraparound is applied at the single
use site by `ulongOfLong` (the compositions agree modulo `2^32`). -/
def atolZ (l : List Char) : Int :=
  match l.dropWhile isWhiteChar with
  | '-' :: r => -(digitsVal (r.takeWhile Char.isDigit) : Int)
  | '+' :: r => (digitsVal (r.takeWhile Char.isDigit) : Int)
  | l1 => (digitsVal (l1.takeWhile Char.isDigit) : Int)

/-- The C++ conversion `long` → `unsigned long` (two's complement,
reduction modulo `2^32`). -/
def ulongOfLong (k : Int) : Nat := (k.emod (2 ^ 32)).toNat

/-- `unsigned long` subtraction `now - start` (wraps modulo `2^32`). -/
def usub32 (a b : Nat) : Nat := (a + 2 ^ 32 - b % 2 ^ 32) % 2 ^ 32

/-! ## Exact binary32 (`float`) model

A nonnegative `float` value is `F.m * 2 ^ F.e`.  `roundF a b` rounds the
rational `a / b` to a 24-bit significand, round-to-nearest ties-to-even —
the exact IEEE 754 binary32 result for the magnitudes this sketch produces. -/

structure F where
  m : Nat
  e : Int
deriving DecidableEq

/-- Number of binary digits (fuel-structured so the kernel can reduce it). -/
def bitlenAux : Nat → Nat → Nat
  | 0, _ => 0
  | fuel + 1, n => if n = 0 then 0 else bitlenAux fuel (n / 2) + 1

def bitlen (n : Nat) : Nat := bitlenAux 128 n

/-- Round `a / b` (with `b > 0`) to the nearest binary32 value.
`⌊log2 (a/b)⌋` is recovered from `⌊a·2^64 / b⌋`, valid whenever
`a / b ≥ 2^-64`, which holds for every quotient the sketch forms. -/
def roundF (a b : Nat) : F :=
  if a = 0 then ⟨0, 0⟩
  else
    let q := a * 2 ^ 64 / b
    let e : Int := (bitlen q : Int) - 65
    let nd : Nat × Nat :=
      if e ≤ 23 then (a * 2 ^ (23 - e).toNat, b) else (a, b * 2 ^ (e - 23).toNat)
    let n := nd.1 / nd.2
    let r := nd.1 % nd.2
    let m :=
      if 2 * r < nd.2 then n
      else if nd.2 < 2 * r then n + 1
      else if n % 2 = 0 then n else n + 1
    ⟨m, e - 23⟩

/-- The C cast `(float)` of an unsigned integer. -/
def f32ofNat (n : Nat) : F := roundF n 1

/-- binary32 division (correctly rounded). -/
def fdivF (x y : F) : F :=
  let d := x.e - y.e
  if 0 ≤ d then roundF (x.m * 2 ^ d.toNat) y.m else roundF x.m (y.m * 2 ^ (-d).toNat)

/-- binary32 multiplication (correctly rounded). -/
def fmulF (x y : F) : F :=
  let ex := x.e + y.e
  if 0 ≤ ex then roundF (x.m * y.m * 2 ^ ex.toNat) 1 else roundF (x.m * y.m) (2 ^ (-ex).toNat)

/-- The C cast `(int)` of a nonnegative `float` (truncation toward zero). -/
def truncF (x : F) : Nat :=
  if 0 ≤ x.e then x.m * 2 ^ x.e.toNat else x.m / 2 ^ (-x.e).toNat

/-- One channel of `(int)(target * progress)`: the `int` target is converted
to `float` (exact for `|t| < 2^24`, rounded otherwise), multiplied in
binary32, and truncated toward zero; signs factor out symmetrically. -/
def chanF (t : Int) (p : F) : Int :=
  if t < 0 then -(truncF (fmulF (f32ofNat (-t).toNat) p) : Int)
  else (truncF (fmulF (f32ofNat t.toNat) p) : Int)

/-! ## The sketch's functions -/

/-- `displayPlanet(String, int, int, int)`: LCD render then `setColor`. -/
def displayPlanet1 (line1 : String) (r g b : Int) : List Ev :=
  [Ev.lcdShowPlanet line1 none, Ev.color r g b]

/-- `displayPlanet(String, String, int, int, int)` (two-line overload). -/
def displayPlanet2 (line1 line2 : String) (r g b : Int) : List Ev :=
  [Ev.lcdShowPlanet line1 (some line2), Ev.color r g b]

/-- `showPlanet(int planet)`: stops the sunrise (`sunriseActive = false`),
then renders the selected preset; indices outside the `switch` cases render
nothing. -/
def showPlanet (planet : Int) (s : St) : St × List Ev :=
  let s1 := { s with sunriseActive := false }
  if planet = 0 then
    (s1, displayPlanet1 "Earth: Home" (planetAt 0).r (planetAt 0).g (planetAt 0).b)
  else if planet = 1 then
    (s1, displayPlanet2 "Moon: Earth's" "Lil sis" (planetAt 1).r (planetAt 1).g (planetAt 1).b)
  else if planet = 2 then
    (s1, displayPlanet2 "Mars: Earth's" "Lil bro" (planetAt 2).r (planetAt 2).g (planetAt 2).b)
  else (s1, [])

/-- `parseAndStartSunrise(String command)`: on a space at a positive index,
arm the sunrise (duration from `toInt` of the remainder, target from the
current preset, start time `millis()`, LED off, LCD and Serial notices);
otherwise print the invalid-format diagnostic and change nothing. -/
def parseAndStartSunrise (command : List Char) (now : Nat) (s : St) : St × List Ev :=
  let firstSpace := idxSpace command
  if 0 < firstSpace then
    let dur := ulongOfLong (atolZ (command.drop (firstSpace + 1).toNat))
    let p := planetAt s.currentPlanet
    ({ s with
        sunriseDuration := dur, targetR := p.r, targetG := p.g, targetB := p.b,
        sunriseActive := true, sunriseStartTime := now },
      [Ev.color 0 0 0, Ev.lcdSunriseStart p.name,
        Ev.serialSunriseStarted p.r p.g p.b dur])
  else (s, [Ev.serialInvalidFormat])

/-- `updateSunrise()`: `elapsedTime = millis() - sunriseStartTime` (unsigned);
when `elapsedTime >= sunriseDuration` the run completes (exact target colour,
completion LCD/Serial messages, `sunriseActive = false`); otherwise the
`float` progress `(float)elapsedTime / (float)sunriseDuration` scales each
channel, truncated by the `(int)` casts. -/
def updateSunrise (now : Nat) (s : St) : St × List Ev :=
  let elapsedTime := usub32 now s.sunriseStartTime
  if s.sunriseDuration ≤ elapsedTime then
    ({ s with sunriseActive := false },
      [Ev.color s.targetR s.targetG s.targetB,
        Ev.lcdComplete (planetAt s.currentPlanet).name,
        Ev.serialSunriseComplete])
  else
    let progress := fdivF (f32ofNat elapsedTime) (f32ofNat s.sunriseDuration)
    (s, [Ev.color (chanF s.targetR progress) (chanF s.targetG progress)
          (chanF s.targetB progress)])

/-- UP-arrow handler arithmetic: `currentPlanet++; if (currentPlanet > 2)
currentPlanet = 0;`. -/
def nextPlanet (i : Int) : Int :=
  let j := i + 1
  if 2 < j then 0 else j

/-- DOWN-arrow handler arithmetic: `currentPlanet--; if (currentPlanet < 0)
currentPlanet = 2;`. -/
def prevPlanet (i : Int) : Int :=
  let j := i - 1
  if j < 0 then 2 else j

/-! ## The event loop — one `loop()` iteration, split into its three phases -/

/-- Phase 1: if a serial line is available, trim it and, when it starts with
`"SUNRISE"`, hand it to the parser; any other line is dropped silently. -/
def serialPhase (line : Option (List Char)) (now : Nat) (s : St) : St × List Ev :=
  match line with
  | none => (s, [])
  | some raw =>
    let command := trimArd raw
    if beginsWith kwd command then parseAndStartSunrise command now s else (s, [])

/-- Phase 2: `if (sunriseActive) updateSunrise();`. -/
def tickPhase (now : Nat) (s : St) : St × List Ev :=
  if s.sunriseActive then updateSunrise now s else (s, [])

/-- Phase 3: `if (!sunriseActive && IrReceiver.decode()) { ... }` — the
short circuit means a pending IR code is not even decoded while the sunrise
is active (the `Bool` result records whether a code was consumed, i.e.
decoded and resumed). -/
def irPhase (irCmd : Option Nat) (s : St) : St × List Ev × Bool :=
  if s.sunriseActive then (s, [], false)
  else
    match irCmd with
    | none => (s, [], false)
    | some code =>
      if code = 9 then
        let np := nextPlanet s.currentPlanet
        let r := showPlanet np { s with currentPlanet := np }
        (r.1, Ev.serialButton code :: (r.2 ++ [Ev.serialPlanetChanged np]), true)
      else if code = 7 then
        let np := prevPlanet s.currentPlanet
        let r := showPlanet np { s with currentPlanet := np }
        (r.1, Ev.serialButton code :: (r.2 ++ [Ev.serialPlanetChanged np]), true)
      else (s, [Ev.serialButton code], true)

/-- One full `loop()` iteration: serial, then animation tick, then IR. -/
def loopIter (line : Option (List Char)) (now : Nat) (irCmd : Option Nat)
    (s : St) : St × List Ev × Bool :=
  let p1 := serialPhase line now s
  let p2 := tickPhase now p1.1
  let p3 := irPhase irCmd p2.1
  (p3.1, p1.2 ++ p2.2 ++ p3.2.1, p3.2.2)

/-! ## Spec-side definitions (for refinement statements) -/

/-- The binary32 progress value `updateSunrise` computes in its
interpolation branch: `fl(fl(e) / fl(D))`. -/
def floatProgress (e D : Nat) : F := fdivF (f32ofNat e) (f32ofNat D)

/-- One output channel of the interpolation branch, as a function of the
target channel, the elapsed time and the duration: truncation toward zero
of the binary32 product `target ⊛ fl(fl(e)/fl(D))`. -/
def interpChannel (t : Int) (e D : Nat) : Int := chanF t (floatProgress e D)

/-! ## Helper lemmas -/

/-- A tick at `now = start + e` observes elapsed time `e` (no wraparound for
in-range values). -/
theorem usub32_add (start e : Nat) (hs : start < 2 ^ 32) (he : e < 2 ^ 32) :
    usub32 (start + e) start = e := by
  unfold usub32; omega

/-! ## C1 — interpolation branch -/

/-- **C1 (amended).** For an armed animation with duration `D > 0`, a tick at
elapsed time `e` with `0 ≤ e < D` leaves the state (and the active flag)
unchanged and writes one colour triple whose channels are each the
truncation toward zero of the binary32 product `target ⊛ p`, all three
computed from the same binary32 progress `p = fl(fl(e)/fl(D))` — not, in
general, the exact truncating integer division `⌊target·e/D⌋` of the
original claim, which the float arithmetic misses on some inputs. -/
theorem updateSunrise_interpolation (s : St) (e : Nat)
    (ha : s.sunriseActive = true) (hs : s.sunriseStartTime < 2 ^ 32)
    (he : e < s.sunriseDuration) (he32 : e < 2 ^ 32) :
    updateSunrise (s.sunriseStartTime + e) s =
      (s, [Ev.color (interpChannel s.targetR e s.sunriseDuration)
            (interpChannel s.targetG e s.sunriseDuration)
            (interpChannel s.targetB e s.sunriseDuration)]) := by
  simp only [updateSunrise, usub32_add s.sunriseStartTime e hs he32,
    interpChannel, floatProgress]
  rw [if_neg (by omega : ¬ s.sunriseDuration ≤ e)]

/-- Witness for `updateSunrise_interpolation`: Earth target `(230,255,0)`,
duration 1000, elapsed 500. -/
theorem updateSunrise_interpolation_witness :
    (⟨0, true, 5, 230, 255, 0, 1000⟩ : St).sunriseActive = true ∧
    (⟨0, true, 5, 230, 255, 0, 1000⟩ : St).sunriseStartTime < 2 ^ 32 ∧
    500 < (⟨0, true, 5, 230, 255, 0, 1000⟩ : St).sunriseDuration ∧
    500 < 2 ^ 32 ∧
    updateSunrise ((⟨0, true, 5, 230, 255, 0, 1000⟩ : St).sunriseStartTime + 500)
        (⟨0, true, 5, 230, 255, 0, 1000⟩ : St) =
      ((⟨0, true, 5, 230, 255, 0, 1000⟩ : St),
        [Ev.color (interpChannel 230 500 1000) (interpChannel 255 500 1000)
          (interpChannel 0 500 1000)]) :=
  ⟨rfl, by decide, by decide, by decide,
    updateSunrise_interpolation ⟨0, true, 5, 230, 255, 0, 1000⟩ 500 rfl
      (by decide) (by decide) (by decide)⟩

/-- **C1 (counterexample).** Armed on the Moon preset `(100,150,255)` with
duration `D = 25`, a tick at elapsed `e = 21 < D` writes `(84, 125, 214)`,
but the claimed channels are `(⌊100·21/25⌋, ⌊150·21/25⌋, ⌊255·21/25⌋) =
(84, 126, 214)`: the green channel is 125, not 126, because the binary32
progress `fl(21/25)` is slightly below `21/25` and `150 · 21 / 25 = 126`
exactly, so the truncation lands one below the exact quotient. -/
theorem updateSunrise_interpolation_cex :
    (⟨1, true, 0, 100, 150, 255, 25⟩ : St).sunriseActive = true ∧
    0 < (⟨1, true, 0, 100, 150, 255, 25⟩ : St).sunriseDuration ∧
    updateSunrise (0 + 21) (⟨1, true, 0, 100, 150, 255, 25⟩ : St) =
      ((⟨1, true, 0, 100, 150, 255, 25⟩ : St), [Ev.color 84 125 214]) ∧
    (150 * 21) / 25 = 126 ∧ (125 : Int) ≠ 126 := by
  refine ⟨rfl, by decide, by decide, by decide, by decide⟩

/-! ## C2 — completion saturates at the exact target -/

/-- **C2.** For an armed animation with duration `D`, a tick at any elapsed
time `e ≥ D` (up to the `unsigned long` range) writes exactly the target
triple — not an interpolated value — then renders the completion message
naming the active preset and clears the active flag; the result does not
depend on how far beyond `D` the elapsed time is. -/
theorem updateSunrise_saturates (s : St) (e : Nat)
    (ha : s.sunriseActive = true) (hs : s.sunriseStartTime < 2 ^ 32)
    (he : s.sunriseDuration ≤ e) (he32 : e < 2 ^ 32) :
    updateSunrise (s.sunriseStartTime + e) s =
      ({ s with sunriseActive := false },
        [Ev.color s.targetR s.targetG s.targetB,
          Ev.lcdComplete (planetAt s.currentPlanet).name,
          Ev.serialSunriseComplete]) := by
  simp only [updateSunrise, usub32_add s.sunriseStartTime e hs he32]
  rw [if_pos he]

/-- Witness for `updateSunrise_saturates`: duration 1000, elapsed 123456
(far beyond the duration). -/
theorem updateSunrise_saturates_witness :
    (⟨2, true, 7, 0, 0, 255, 1000⟩ : St).sunriseActive = true ∧
    (⟨2, true, 7, 0, 0, 255, 1000⟩ : St).sunriseStartTime < 2 ^ 32 ∧
    (⟨2, true, 7, 0, 0, 255, 1000⟩ : St).sunriseDuration ≤ 123456 ∧
    123456 < 2 ^ 32 ∧
    updateSunrise ((⟨2, true, 7, 0, 0, 255, 1000⟩ : St).sunriseStartTime + 123456)
        (⟨2, true, 7, 0, 0, 255, 1000⟩ : St) =
      (({ (⟨2, true, 7, 0, 0, 255, 1000⟩ : St) with sunriseActive := false }),
        [Ev.color 0 0 255, Ev.lcdComplete "Mars", Ev.serialSunriseComplete]) :=
  ⟨rfl, by decide, by decide, by decide,
    updateSunrise_saturates ⟨2, true, 7, 0, 0, 255, 1000⟩ 123456 rfl
      (by decide) (by decide) (by decide)⟩

/-! ## C4 — zero duration completes immediately, no division -/

/-- **C4.** With `sunriseDuration = 0` the completion guard
`elapsedTime >= sunriseDuration` holds at every tick (elapsed is unsigned,
hence `≥ 0`), so the very first tick after arming takes the completion
branch for every possible `now`: the interpolation branch containing the
division `(float)elapsedTime / (float)sunriseDuration` is never evaluated,
and no division-by-zero fault can occur. -/
theorem updateSunrise_zero_duration (s : St) (now : Nat)
    (hD : s.sunriseDuration = 0) :
    updateSunrise now s =
      ({ s with sunriseActive := false },
        [Ev.color s.targetR s.targetG s.targetB,
          Ev.lcdComplete (planetAt s.currentPlanet).name,
          Ev.serialSunriseComplete]) := by
  simp only [updateSunrise, hD]
  rw [if_pos (Nat.zero_le _)]

/-- Witness for `updateSunrise_zero_duration` at the first tick after an
arm at `now = 42` (elapsed 0). -/
theorem updateSunrise_zero_duration_witness :
    (⟨0, true, 42, 230, 255, 0, 0⟩ : St).sunriseDuration = 0 ∧
    updateSunrise 42 (⟨0, true, 42, 230, 255, 0, 0⟩ : St) =
      (({ (⟨0, true, 42, 230, 255, 0, 0⟩ : St) with sunriseActive := false }),
        [Ev.color 230 255 0, Ev.lcdComplete "Earth", Ev.serialSunriseComplete]) :=
  ⟨rfl, updateSunrise_zero_duration ⟨0, true, 42, 230, 255, 0, 0⟩ 42 rfl⟩

/-! ## C6 — selection wraparound -/

/-- **C6.** For every valid preset index `0 ≤ i < 3`, one UP step yields
`(i+1) mod 3` and one DOWN step yields `(i-1) mod 3` (so index 3 wraps to 0
and index −1 wraps to 2), and three consecutive UP steps return to `i`. -/
theorem selection_wraparound (i : Int) (h0 : 0 ≤ i) (h3 : i < 3) :
    nextPlanet i = (i + 1).emod 3 ∧ prevPlanet i = (i - 1).emod 3 ∧
    nextPlanet^[3] i = i := by
  interval_cases i <;> exact ⟨by decide, by decide, by decide⟩

/-- Witness for `selection_wraparound` at the wrapping index `i = 2`. -/
theorem selection_wraparound_witness :
    (0 : Int) ≤ 2 ∧ (2 : Int) < 3 ∧
    nextPlanet 2 = (2 + 1 : Int).emod 3 ∧ prevPlanet 2 = (2 - 1 : Int).emod 3 ∧
    nextPlanet^[3] 2 = 2 :=
  ⟨by decide, by decide, selection_wraparound 2 (by decide) (by decide)⟩

/-! ## C3 — selection while running cancels without a completion write -/

/-- **C3.** Selecting a preset while the animation is running (`showPlanet`,
reached from either remote direction) clears the active flag and leaves
every other state field untouched; the only colour it writes comes from the
preset table, so whenever the selected preset's colour differs from the
armed target, the target (completion) colour is not written — the last
interpolated colour produced by the most recent tick remains the last value
the animation path wrote. -/
theorem showPlanet_cancels (s : St) (i : Int) (ha : s.sunriseActive = true)
    (h0 : 0 ≤ i) (h3 : i < 3)
    (hne : ((planetAt i).r, (planetAt i).g, (planetAt i).b) ≠
      (s.targetR, s.targetG, s.targetB)) :
    (showPlanet i s).1 = { s with sunriseActive := false } ∧
    colorWrites (showPlanet i s).2 =
      [((planetAt i).r, (planetAt i).g, (planetAt i).b)] ∧
    Ev.color s.targetR s.targetG s.targetB ∉ (showPlanet i s).2 := by
  interval_cases i <;>
    refine ⟨rfl, by simp [showPlanet, displayPlanet1, displayPlanet2,
      colorWrites, planetAt, planets], ?_⟩ <;>
  · intro hmem
    simp [showPlanet, displayPlanet1, displayPlanet2, planetAt, planets,
      Prod.ext_iff] at hmem hne
    omega

/-- Witness for `showPlanet_cancels`: armed on Earth's colour
`(230,255,0)`, selecting the Moon (index 1) cancels and writes only the
Moon's preset colour `(100,150,255)`. -/
theorem showPlanet_cancels_witness :
    (⟨0, true, 3, 230, 255, 0, 1000⟩ : St).sunriseActive = true ∧
    ((planetAt 1).r, (planetAt 1).g, (planetAt 1).b) ≠ ((230 : Int), (255 : Int), (0 : Int)) ∧
    (showPlanet 1 (⟨0, true, 3, 230, 255, 0, 1000⟩ : St)).1 =
      { (⟨0, true, 3, 230, 255, 0, 1000⟩ : St) with sunriseActive := false } ∧
    colorWrites (showPlanet 1 (⟨0, true, 3, 230, 255, 0, 1000⟩ : St)).2 =
      [((100 : Int), (150 : Int), (255 : Int))] ∧
    Ev.color 230 255 0 ∉ (showPlanet 1 (⟨0, true, 3, 230, 255, 0, 1000⟩ : St)).2 :=
  ⟨rfl, by decide,
    showPlanet_cancels ⟨0, true, 3, 230, 255, 0, 1000⟩ 1 rfl (by decide)
      (by decide) (by decide)⟩

/-! ## Parsing lemmas -/

/-- `idxSpace` never returns anything below `-1`. -/
theorem neg_one_le_idxSpace (l : List Char) : -1 ≤ idxSpace l := by
  induction l with
  | nil => simp [idxSpace]
  | cons c cs ih =>
    by_cases hc : c = ' ' <;> by_cases hr : idxSpace cs = -1 <;>
      simp only [idxSpace, hc, hr, if_true, if_false, if_pos, if_neg,
        reduceIte] <;> omega

/-- `indexOf(' ')` returns `-1` exactly when the string has no space. -/
theorem idxSpace_neg_one_iff (l : List Char) : idxSpace l = -1 ↔ ' ' ∉ l := by
  induction l with
  | nil => simp [idxSpace]
  | cons c cs ih =>
    simp only [idxSpace, List.mem_cons]
    by_cases hc : c = ' '
    · subst hc; simp
    · rw [if_neg hc]
      by_cases hr : idxSpace cs = -1
      · rw [if_pos hr]
        have hcs : ' ' ∉ cs := ih.mp hr
        simp only [eq_self_iff_true, true_iff]
        intro h
        rcases h with h | h
        · exact hc h.symm
        · exact hcs h
      · rw [if_neg hr]
        have h1 := neg_one_le_idxSpace cs
        have h2 : ' ' ∈ cs := by
          by_contra hn
          exact hr (ih.mpr hn)
        constructor
        · intro h; omega
        · intro h; exact absurd (Or.inr h2) h

/-- A line accepted by the `"SUNRISE"` prefix check starts with `'S'`. -/
theorem beginsWith_kwd_shape {l : List Char} (h : beginsWith kwd l = true) :
    ∃ cs, l = 'S' :: cs := by
  cases l with
  | nil => simp [kwd, beginsWith] at h
  | cons c cs =>
    simp only [kwd, beginsWith, Bool.and_eq_true, beq_iff_eq] at h
    exact ⟨cs, by rw [h.1]⟩

/-! ## C5 — keyword line without separator: diagnostic, state untouched -/

/-- **C5.** A serial line that (after trimming) starts with the keyword but
contains no space separator makes `indexOf(' ')` return `-1`, so the parse
fails: the invalid-format diagnostic is printed and the state — in
particular every animation field — is returned exactly as it was. -/
theorem malformed_line_no_side_effects (raw : List Char) (now : Nat) (s : St)
    (hk : beginsWith kwd (trimArd raw) = true)
    (hs : ' ' ∉ trimArd raw) :
    serialPhase (some raw) now s = (s, [Ev.serialInvalidFormat]) := by
  have hidx : idxSpace (trimArd raw) = -1 := (idxSpace_neg_one_iff _).mpr hs
  simp only [serialPhase, hk, if_true, parseAndStartSunrise, hidx]
  rw [if_neg (by decide : ¬ (0 : Int) < -1)]

/-- Witness for `malformed_line_no_side_effects`: the bare line
`"SUNRISE"`. -/
theorem malformed_line_no_side_effects_witness :
    beginsWith kwd (trimArd kwd) = true ∧ ' ' ∉ trimArd kwd ∧
    serialPhase (some kwd) 3 (⟨1, false, 0, 9, 9, 9, 77⟩ : St) =
      ((⟨1, false, 0, 9, 9, 9, 77⟩ : St), [Ev.serialInvalidFormat]) :=
  ⟨by decide, by decide,
    malformed_line_no_side_effects kwd 3 ⟨1, false, 0, 9, 9, 9, 77⟩
      (by decide) (by decide)⟩

/-! ## `toInt` lemmas and the well-formed-command parse shape -/

/-- Membership survives `dropWhile`. -/
theorem mem_of_mem_dropWhile {α} (p : α → Bool) :
    ∀ (l : List α) (a : α), a ∈ l.dropWhile p → a ∈ l := by
  intro l
  induction l with
  | nil => intro a ha; exact ha
  | cons c cs ih =>
    intro a ha
    rw [List.dropWhile_cons] at ha
    by_cases hp : p c
    · rw [if_pos hp] at ha
      exact List.mem_cons_of_mem c (ih a ha)
    · rw [if_neg hp] at ha
      exact ha

/-- A digit run over digit-free input is empty. -/
theorem takeWhile_digits_nil {l : List Char} (h : ∀ c ∈ l, c.isDigit = false) :
    l.takeWhile Char.isDigit = [] := by
  cases l with
  | nil => rfl
  | cons c cs => simp [List.takeWhile_cons, h c (List.mem_cons_self c cs)]

/-- `String::toInt` on any input containing no decimal digit silently
yields `0` (the `atol` zero fallback). -/
theorem atolZ_eq_zero (t : List Char) (hd : ∀ c ∈ t, c.isDigit = false) :
    atolZ t = 0 := by
  have hsub : ∀ c ∈ t.dropWhile isWhiteChar, c.isDigit = false :=
    fun c hc => hd c (mem_of_mem_dropWhile isWhiteChar t c hc)
  unfold atolZ
  rcases hdw : t.dropWhile isWhiteChar with - | ⟨c, r⟩
  · simp [digitsVal]
  · rw [hdw] at hsub
    have hr : ∀ c ∈ r, c.isDigit = false :=
      fun x hx => hsub x (List.mem_cons_of_mem c hx)
    have hcr : (c :: r).takeWhile Char.isDigit = [] := takeWhile_digits_nil hsub
    have hrn : r.takeWhile Char.isDigit = [] := takeWhile_digits_nil hr
    split
    · rename_i rr heq
      injection heq with h1 h2
      rw [← h2, hrn]
      simp [digitsVal]
    · rename_i rr heq
      injection heq with h1 h2
      rw [← h2, hrn]
      simp [digitsVal]
    · rw [hcr]
      simp [digitsVal]

/-- Shape of a successful parse: on `"SUNRISE " ++ t` the space sits at
index 7, the remainder is exactly `t`, and the sketch arms with duration
`toInt(t)` converted to `unsigned long`, target copied from the current
preset, start time `millis()`, an immediate `(0,0,0)` write and the
start-up LCD/Serial notices. -/
theorem parse_kwd_token (t : List Char) (now : Nat) (s : St) :
    parseAndStartSunrise (kwd ++ ' ' :: t) now s =
      ({ s with
          sunriseDuration := ulongOfLong (atolZ t),
          targetR := (planetAt s.currentPlanet).r,
          targetG := (planetAt s.currentPlanet).g,
          targetB := (planetAt s.currentPlanet).b,
          sunriseActive := true, sunriseStartTime := now },
        [Ev.color 0 0 0, Ev.lcdSunriseStart (planetAt s.currentPlanet).name,
          Ev.serialSunriseStarted (planetAt s.currentPlanet).r
            (planetAt s.currentPlanet).g (planetAt s.currentPlanet).b
            (ulongOfLong (atolZ t))]) := rfl

/-! ## C8 — non-numeric duration token is accepted as duration 0 -/

/-- **C8.** A `"SUNRISE <token>"` line whose token contains no decimal
digit is not rejected: `toInt` silently returns `0`, so the command arms
the animation with duration `0` (the reference zero-fallback behaviour). -/
theorem nonnumeric_token_accepted_as_zero (t : List Char) (now : Nat) (s : St)
    (hd : ∀ c ∈ t, c.isDigit = false) :
    parseAndStartSunrise (kwd ++ ' ' :: t) now s =
      ({ s with
          sunriseDuration := 0,
          targetR := (planetAt s.currentPlanet).r,
          targetG := (planetAt s.currentPlanet).g,
          targetB := (planetAt s.currentPlanet).b,
          sunriseActive := true, sunriseStartTime := now },
        [Ev.color 0 0 0, Ev.lcdSunriseStart (planetAt s.currentPlanet).name,
          Ev.serialSunriseStarted (planetAt s.currentPlanet).r
            (planetAt s.currentPlanet).g (planetAt s.currentPlanet).b 0]) := by
  rw [parse_kwd_token, atolZ_eq_zero t hd]
  rfl

/-- Witness for `nonnumeric_token_accepted_as_zero`: the line
`"SUNRISE abc"`. -/
theorem nonnumeric_token_accepted_as_zero_witness :
    (∀ c ∈ ['a', 'b', 'c'], c.isDigit = false) ∧
    parseAndStartSunrise (kwd ++ ' ' :: ['a', 'b', 'c']) 11
        (⟨0, false, 0, 0, 0, 0, 0⟩ : St) =
      ({ (⟨0, false, 0, 0, 0, 0, 0⟩ : St) with
          sunriseDuration := 0, targetR := 230, targetG := 255, targetB := 0,
          sunriseActive := true, sunriseStartTime := 11 },
        [Ev.color 0 0 0, Ev.lcdSunriseStart "Earth",
          Ev.serialSunriseStarted 230 255 0 0]) :=
  ⟨by decide,
    nonnumeric_token_accepted_as_zero ['a', 'b', 'c'] 11
      ⟨0, false, 0, 0, 0, 0, 0⟩ (by decide)⟩

/-! ## C9 — negative duration token wraps modulo 2^32 -/

/-- **C9.** A `"SUNRISE <token>"` line whose token `toInt`s to a negative
`k < 0` is neither rejected nor treated as zero: the `long` value is stored
into the `unsigned long` duration, so the animation is armed with duration
`k mod 2^32` (for `-1`, `4294967295` ms). -/
theorem negative_token_wraps (t : List Char) (now : Nat) (s : St) (k : Int)
    (hk : atolZ t = k) (hneg : k < 0) :
    (parseAndStartSunrise (kwd ++ ' ' :: t) now s).1.sunriseDuration =
      (k.emod (2 ^ 32)).toNat ∧
    (parseAndStartSunrise (kwd ++ ' ' :: t) now s).1.sunriseActive = true := by
  rw [parse_kwd_token, hk]
  exact ⟨rfl, rfl⟩

/-- Witness for `negative_token_wraps`: `"SUNRISE -1"` arms with duration
`(-1) mod 2^32 = 4294967295`. -/
theorem negative_token_wraps_witness :
    atolZ ['-', '1'] = -1 ∧ (-1 : Int) < 0 ∧
    ((-1 : Int).emod (2 ^ 32)).toNat = 4294967295 ∧
    (parseAndStartSunrise (kwd ++ ' ' :: ['-', '1']) 5
        (⟨2, false, 0, 0, 0, 0, 0⟩ : St)).1.sunriseDuration =
      ((-1 : Int).emod (2 ^ 32)).toNat ∧
    (parseAndStartSunrise (kwd ++ ' ' :: ['-', '1']) 5
        (⟨2, false, 0, 0, 0, 0, 0⟩ : St)).1.sunriseActive = true :=
  ⟨by decide, by decide, by decide,
    negative_token_wraps ['-', '1'] 5 ⟨2, false, 0, 0, 0, 0, 0⟩ (-1)
      (by decide) (by decide)⟩

/-! ## C10 — non-keyword lines are silently discarded -/

/-- **C10.** A complete serial line whose trimmed text does not start with
`"SUNRISE"` is dropped with no state change and no output of any kind (in
particular no diagnostic); and whenever the invalid-format diagnostic *is*
emitted, the trimmed line did start with the keyword and contained no space
separator. -/
theorem non_keyword_line_discarded (raw : List Char) (now : Nat) (s : St) :
    (beginsWith kwd (trimArd raw) = false →
      serialPhase (some raw) now s = (s, [])) ∧
    (Ev.serialInvalidFormat ∈ (serialPhase (some raw) now s).2 →
      beginsWith kwd (trimArd raw) = true ∧ ' ' ∉ trimArd raw) := by
  constructor
  · intro h
    simp [serialPhase, h]
  · intro hmem
    by_cases hk : beginsWith kwd (trimArd raw) = true
    · refine ⟨hk, ?_⟩
      simp only [serialPhase, hk, if_true] at hmem
      obtain ⟨cs, hcs⟩ := beginsWith_kwd_shape hk
      by_cases hidx : 0 < idxSpace (trimArd raw)
      · simp [parseAndStartSunrise, hidx] at hmem
      · have h1 := neg_one_le_idxSpace (trimArd raw)
        have h0 : idxSpace (trimArd raw) ≠ 0 := by
          rw [hcs]
          have h2 := neg_one_le_idxSpace cs
          by_cases hr : idxSpace cs = -1 <;>
            simp [idxSpace, hr] <;> omega
        exact (idxSpace_neg_one_iff _).mp (by omega)
    · rw [Bool.not_eq_true] at hk
      simp [serialPhase, hk] at hmem

/-- Witness for `non_keyword_line_discarded`: the line `"HELLO"` is
discarded silently. -/
theorem non_keyword_line_discarded_witness :
    beginsWith kwd (trimArd ['H', 'E', 'L', 'L', 'O']) = false ∧
    serialPhase (some ['H', 'E', 'L', 'L', 'O']) 4
        (⟨1, true, 2, 3, 4, 5, 6⟩ : St) = ((⟨1, true, 2, 3, 4, 5, 6⟩ : St), []) :=
  ⟨by decide,
    (non_keyword_line_discarded ['H', 'E', 'L', 'L', 'O'] 4
      ⟨1, true, 2, 3, 4, 5, 6⟩).1 (by decide)⟩

/-! ## C7 — remote handling vs. the active animation -/

/-- The short-circuited guard `!sunriseActive && IrReceiver.decode()`:
while the animation is (still) active, the decoder is not even polled. -/
theorem irPhase_active (irCmd : Option Nat) (s : St)
    (h : s.sunriseActive = true) : irPhase irCmd s = (s, [], false) := by
  simp [irPhase, h]

/-- **C7 (amended).** In every event-loop iteration in which the animation
is still active when the remote phase is reached — i.e. active after the
serial and tick phases, since the guard `!sunriseActive` is evaluated only
then — the remote input is not consumed (the decoder is not polled, the
pending code stays buffered) and the whole iteration leaves the state,
including the selection index, exactly as the tick phase left it. -/
theorem remote_ignored_while_still_active (line : Option (List Char))
    (now : Nat) (irCmd : Option Nat) (s : St)
    (h : (tickPhase now (serialPhase line now s).1).1.sunriseActive = true) :
    (loopIter line now irCmd s).1 =
      (tickPhase now (serialPhase line now s).1).1 ∧
    (loopIter line now irCmd s).2.2 = false := by
  simp only [loopIter]
  rw [irPhase_active irCmd _ h]
  exact ⟨rfl, rfl⟩

/-- Witness for `remote_ignored_while_still_active`: mid-run tick
(elapsed 1 of 1000) with an UP code pending — nothing is consumed. -/
theorem remote_ignored_while_still_active_witness :
    (tickPhase 1 (serialPhase none 1 (⟨0, true, 0, 230, 255, 0, 1000⟩ : St)).1).1.sunriseActive
      = true ∧
    (loopIter none 1 (some 9) (⟨0, true, 0, 230, 255, 0, 1000⟩ : St)).1 =
      (tickPhase 1 (serialPhase none 1 (⟨0, true, 0, 230, 255, 0, 1000⟩ : St)).1).1 ∧
    (loopIter none 1 (some 9) (⟨0, true, 0, 230, 255, 0, 1000⟩ : St)).2.2 = false :=
  ⟨by decide,
    remote_ignored_while_still_active none 1 (some 9)
      ⟨0, true, 0, 230, 255, 0, 1000⟩ (by decide)⟩

/-- **C7 (counterexample).** An iteration that *begins* with the animation
active is not remote-free: with duration 5, elapsed 5 the tick completes
the run (clearing `sunriseActive`), after which the same iteration's remote
phase does decode a pending UP code and moves the selection from 0 to 1 —
so "remote input is never consumed in an iteration in which the animation
is active" is false as stated. -/
theorem remote_consumed_on_completion_cex :
    (⟨0, true, 0, 230, 255, 0, 5⟩ : St).sunriseActive = true ∧
    (⟨0, true, 0, 230, 255, 0, 5⟩ : St).currentPlanet = 0 ∧
    (loopIter none 5 (some 9) (⟨0, true, 0, 230, 255, 0, 5⟩ : St)).1.currentPlanet
      = 1 ∧
    (loopIter none 5 (some 9) (⟨0, true, 0, 230, 255, 0, 5⟩ : St)).2.2 = true := by
  decide
